import Mathlib

/-!
Verification development for the order-processing saga
(order-service, inventory-service, payment-service consumers).

The Python consumers are embedded shallowly:
  - each service's database is an explicit list of rows (the tables declared
    in the services' `models.py` files), threaded through the handlers;
  - each handler is a pure function from the store (plus the decoded event
    fields) to the updated store together with the event it publishes, if any
    (`none` models "no publish happened");
  - SQLAlchemy's `session.get` is `List.find?` on the primary key, and an
    in-session object cache is modelled by threading the updated list through
    consecutive reads inside one handler;
  - a transaction commit that violates the composite primary key of
    `inventory_reservations` (`order_id`, `product_id` are both declared
    `primary_key=True` in inventory-service/app/models.py) raises
    `IntegrityError`; the handler's `except` swallows it, so the whole
    transaction is rolled back: the store is unchanged and no event is
    published.  This is the `insertOk` guard below;
  - `random.random() < 0.8` in the payment simulation is an oracle
    `Nat → Bool` giving the outcome of each attempt;
  - timestamps (`datetime.utcnow()`) are abstract `Nat` instants passed in as
    a `now` parameter; uuids (`event_id`, `reservation_id`, `payment_id`) are
    omitted from the event payloads, which keep only the fields the claims
    talk about;
  - the float literal `100.0` (placeholder amount) and `total_amount` are
    modelled as integers, since no arithmetic is ever performed on them.
-/

namespace OrderSaga

/-! ## Inventory service (src/inventory-service/app) -/

/-- One decoded entry of the `items` list of an `OrderCreated` event. -/
structure OrderItem where
  product_id : String
  quantity : Int
deriving Repr, DecidableEq

/-- A row of the `inventory` table (models.py): primary key `product_id`. -/
structure InventoryRow where
  product_id : String
  stock : Int
deriving Repr, DecidableEq

/-- A row of the `inventory_reservations` table (models.py): composite
primary key (`order_id`, `product_id`). -/
structure InventoryReservation where
  order_id : String
  product_id : String
  quantity : Int
deriving Repr, DecidableEq

/-- The inventory service's database. -/
structure InvState where
  inventory : List InventoryRow
  reservations : List InventoryReservation
deriving Repr, DecidableEq

/-- Events published by the inventory service. -/
inductive InvEvent where
  | inventoryReserved (order_id : String)
  | inventoryUnavailable (order_id : String) (reason : String)
deriving Repr, DecidableEq

/-- Models `session.get(Inventory, product_id)`. -/
def getInventory (inv : List InventoryRow) (pid : String) : Option InventoryRow :=
  inv.find? (fun row => row.product_id == pid)

/-- Overwrite the stock of the first row whose key is `pid` (the ORM mutation
`inventory.stock = v` on the row returned by `session.get`). -/
def setStock (inv : List InventoryRow) (pid : String) (v : Int) : List InventoryRow :=
  match inv with
  | [] => []
  | row :: rest =>
    if row.product_id == pid then { row with stock := v } :: rest
    else row :: setStock rest pid v

/-- Phase 1 of `process_order_created` (consumer.py lines 44-58): check every
item against the committed stock and build the pending reservation list.
`none` models `inventory_reserved = False` (a missing product or
`inventory.stock < quantity` breaks the loop). -/
def checkAndPrepare (inv : List InventoryRow) (order_id : String) :
    List OrderItem → Option (List InventoryReservation)
  | [] => some []
  | item :: rest =>
    match getInventory inv item.product_id with
    | none => none
    | some row =>
      if row.stock < item.quantity then none
      else
        match checkAndPrepare inv order_id rest with
        | none => none
        | some rs =>
          some ({ order_id := order_id, product_id := item.product_id,
                  quantity := item.quantity } :: rs)

/-- Phase 2 of `process_order_created` (consumer.py lines 60-66): for each
pending reservation, re-`get` the product (hitting the session cache, hence
the threaded list) and decrement its stock. -/
def applyReservations (inv : List InventoryRow) :
    List InventoryReservation → List InventoryRow
  | [] => inv
  | r :: rest =>
    match getInventory inv r.product_id with
    | some row =>
      applyReservations (setStock inv r.product_id (row.stock - r.quantity)) rest
    | none => applyReservations inv rest

/-- Two reservation rows collide on the composite primary key
(`order_id`, `product_id`). -/
def sameKey (a b : InventoryReservation) : Bool :=
  a.order_id == b.order_id && a.product_id == b.product_id

/-- Some row of `rs` collides with `r` on the primary key. -/
def keyClash (rs : List InventoryReservation) (r : InventoryReservation) : Bool :=
  rs.any (fun x => sameKey x r)

/-- The `INSERT`s of the pending reservations commit without an
`IntegrityError`: each new row's key is distinct from every already-persisted
row and from every other new row. -/
def insertOk (existing : List InventoryReservation) :
    List InventoryReservation → Bool
  | [] => true
  | r :: rest => !(keyClash existing r) && !(keyClash rest r) && insertOk existing rest

/-- `process_order_created` (inventory-service/app/consumer.py lines 31-90).
If the stock check fails, nothing is mutated and `InventoryUnavailable` is
published with reason `"Insufficient stock"`.  If it succeeds, the stock
decrements and the reservation inserts are committed as one transaction;
a primary-key violation aborts the commit (state unchanged, and the publish
on line 77, which only runs after the commit, is skipped). -/
def process_order_created (s : InvState) (order_id : String)
    (items : List OrderItem) : InvState × Option InvEvent :=
  match checkAndPrepare s.inventory order_id items with
  | none => (s, some (InvEvent.inventoryUnavailable order_id "Insufficient stock"))
  | some rs =>
    if insertOk s.reservations rs then
      ({ inventory := applyReservations s.inventory rs,
         reservations := s.reservations ++ rs },
       some (InvEvent.inventoryReserved order_id))
    else (s, none)

/-- The rollback loop of `process_order_cancelled` (consumer.py lines
113-118): credit each reservation's quantity back to its product, skipping a
missing product (`if inventory:`). -/
def creditReservations (inv : List InventoryRow) :
    List InventoryReservation → List InventoryRow
  | [] => inv
  | r :: rest =>
    match getInventory inv r.product_id with
    | some row =>
      creditReservations (setStock inv r.product_id (row.stock + r.quantity)) rest
    | none => creditReservations inv rest

/-- `process_order_cancelled` (inventory-service/app/consumer.py lines
92-129).  No reservations for the order id: idempotent no-op.  Otherwise
credit every reservation back and delete all reservation rows of the order.
No event is ever published by this handler. -/
def process_order_cancelled (s : InvState) (order_id : String) :
    InvState × Option InvEvent :=
  let rs := s.reservations.filter (fun r => r.order_id == order_id)
  if rs.isEmpty then (s, none)
  else
    ({ inventory := creditReservations s.inventory rs,
       reservations := s.reservations.filter (fun r => !(r.order_id == order_id)) },
     none)

/-- A message consumed by the inventory service (`on_message` dispatch on the
routing keys `order.created` / `order.cancelled`). -/
inductive InvMsg where
  | orderCreated (order_id : String) (items : List OrderItem)
  | orderCancelled (order_id : String)
deriving Repr, DecidableEq

/-- Dispatch one message to the matching handler. -/
def handleInvMsg (s : InvState) : InvMsg → InvState × Option InvEvent
  | InvMsg.orderCreated order_id items => process_order_created s order_id items
  | InvMsg.orderCancelled order_id => process_order_cancelled s order_id

/-- Run the consumer over a sequence of messages. -/
def runInv (s : InvState) : List InvMsg → InvState
  | [] => s
  | m :: rest => runInv (handleInvMsg s m).1 rest

/-- Every item of an `OrderCreated` payload carries a non-negative quantity
(the spec's data model: line items have positive quantity). -/
def msgOk : InvMsg → Bool
  | InvMsg.orderCreated _ items => items.all (fun it => decide (0 ≤ it.quantity))
  | InvMsg.orderCancelled _ => true

/-- The stock recorded for a product, if the product exists. -/
def stockOf (s : InvState) (pid : String) : Option Int :=
  (getInventory s.inventory pid).map (fun row => row.stock)

/-- The condition of consumer.py line 53 holds for an item: the product row
exists and has enough stock. -/
def itemAvailable (inv : List InventoryRow) (it : OrderItem) : Bool :=
  match getInventory inv it.product_id with
  | none => false
  | some row => decide (it.quantity ≤ row.stock)

/-- The database invariant the claims quantify over: all stocks are
non-negative and all reservation quantities are non-negative. -/
def InvWF (s : InvState) : Prop :=
  (∀ row ∈ s.inventory, 0 ≤ row.stock) ∧ (∀ r ∈ s.reservations, 0 ≤ r.quantity)

instance (s : InvState) : Decidable (InvWF s) := by
  unfold InvWF; infer_instance

/-! ## Payment service (src/payment-service/app) -/

/-- A row of the `payments` table (payment-service/app/models.py): primary
key `order_id` ("Using order_id as primary key for idempotency"). -/
structure Payment where
  order_id : String
  amount : Int
  status : String
deriving Repr, DecidableEq

/-- Events published by the payment service. -/
inductive PayEvent where
  | paymentProcessed (order_id : String) (amount : Int)
  | paymentFailed (order_id : String) (reason : String)
deriving Repr, DecidableEq

/-- Tenacity's `wait_exponential(multiplier, min, max)` after the attempt
numbered `attempt` (attempts are numbered from 1): `multiplier * 2 ^ attempt`
clamped into `[mn, mx]`. -/
def wait_exponential (multiplier mn mx attempt : Nat) : Nat :=
  max mn (min (multiplier * 2 ^ attempt) mx)

/-- The retry loop of `@retry(stop=stop_after_attempt(3), ...)`: run the
attempts whose numbers are listed, stopping at the first success; between two
attempts, sleep `wait_exponential 1 2 10` of the attempt that just failed.
Returns (overall success, number of the last attempt run, waits performed).
`oracle n` is the outcome of attempt `n` (`random.random() < 0.8`). -/
def retryLoop (oracle : Nat → Bool) : List Nat → Bool × Nat × List Nat
  | [] => (false, 0, [])
  | [a] => (oracle a, a, [])
  | a :: b :: rest =>
    if oracle a then (true, a, [])
    else
      let out := retryLoop oracle (b :: rest)
      (out.1, out.2.1, wait_exponential 1 2 10 a :: out.2.2)

/-- `simulate_payment_processing` (payment-service/app/consumer.py lines
18-26): at most 3 attempts; a result of `false` models the `RetryError`
raised once the budget is exhausted (a final failure, caught by the caller's
`except`), never a pending state. -/
def simulate_payment_processing (oracle : Nat → Bool) : Bool × Nat × List Nat :=
  retryLoop oracle [1, 2, 3]

/-- Models `session.get(Payment, order_id)`. -/
def getPayment (ps : List Payment) (order_id : String) : Option Payment :=
  ps.find? (fun p => p.order_id == order_id)

/-- `process_inventory_reserved` (payment-service/app/consumer.py lines
28-91).  An existing payment record for the order id (any status) stops
processing before the charge is attempted: no row is written and no event is
published.  Otherwise the simulated charge runs; on success a `PROCESSED` row
is inserted and `PaymentProcessed` published, on exhausted failure a `FAILED`
row is inserted and `PaymentFailed` published.  The placeholder amount
`100.0` is the integer 100 here. -/
def process_inventory_reserved (ps : List Payment) (oracle : Nat → Bool)
    (order_id : String) : List Payment × Option PayEvent :=
  match getPayment ps order_id with
  | some _ => (ps, none)
  | none =>
    if (simulate_payment_processing oracle).1 then
      (ps ++ [{ order_id := order_id, amount := 100, status := "PROCESSED" }],
       some (PayEvent.paymentProcessed order_id 100))
    else
      (ps ++ [{ order_id := order_id, amount := 100, status := "FAILED" }],
       some (PayEvent.paymentFailed order_id "Payment failed after retries"))

/-! ## Order service (src/order-service/app) -/

/-- `OrderStatus` (order-service/app/models.py). -/
inductive OrderStatus where
  | PENDING
  | CONFIRMED
  | PAYMENT_PROCESSING
  | PAYMENT_FAILED
  | COMPLETED
  | CANCELLED
deriving Repr, DecidableEq

/-- A row of the `orders` table (order-service/app/models.py); timestamps are
abstract `Nat` instants. -/
structure Order where
  id : String
  customer_id : String
  items : String
  total_amount : Int
  status : OrderStatus
  created_at : Nat
  updated_at : Nat
deriving Repr, DecidableEq

/-- Events published by the order service consumer; the timestamp field is
`str(order.updated_at)` in the source. -/
inductive OrderEvent where
  | orderConfirmed (order_id : String) (timestamp : Nat) (total_amount : Int)
  | orderCancelled (order_id : String) (timestamp : Nat) (reason : String)
deriving Repr, DecidableEq

/-- Models `select(Order).where(Order.id == order_id)` + `scalar_one_or_none`. -/
def findOrder (store : List Order) (order_id : String) : Option Order :=
  store.find? (fun o => o.id == order_id)

/-- Persist the mutated ORM row: replace the first row with the same id. -/
def replaceOrder (store : List Order) (o : Order) : List Order :=
  match store with
  | [] => []
  | x :: rest => if x.id == o.id then o :: rest else x :: replaceOrder rest o

/-- `update_order_status` (order-service/app/consumer.py lines 18-29): find
the order; if present, unconditionally overwrite `status` and `updated_at`
and commit, returning the row; if absent, return `None` and leave the store
untouched.  There is no read-and-compare of the current status. -/
def update_order_status (store : List Order) (order_id : String)
    (new_status : OrderStatus) (now : Nat) : List Order × Option Order :=
  match findOrder store order_id with
  | some o =>
    let updated := { o with status := new_status, updated_at := now }
    (replaceOrder store updated, some updated)
  | none => (store, none)

/-- `process_payment_processed` (consumer.py lines 54-75): set the order to
`COMPLETED`; if the order was found, publish `OrderConfirmed` with the
order's `total_amount`. -/
def process_payment_processed (store : List Order) (order_id : String)
    (now : Nat) : List Order × Option OrderEvent :=
  match update_order_status store order_id OrderStatus.COMPLETED now with
  | (store1, some o) =>
    (store1, some (OrderEvent.orderConfirmed order_id o.updated_at o.total_amount))
  | (store1, none) => (store1, none)

/-- `process_payment_failed` (consumer.py lines 77-98): set the order to
`CANCELLED`; if found, publish `OrderCancelled` with reason
`"Payment Failed"`. -/
def process_payment_failed (store : List Order) (order_id : String)
    (now : Nat) : List Order × Option OrderEvent :=
  match update_order_status store order_id OrderStatus.CANCELLED now with
  | (store1, some o) =>
    (store1, some (OrderEvent.orderCancelled order_id o.updated_at "Payment Failed"))
  | (store1, none) => (store1, none)

/-- `process_inventory_unavailable` (consumer.py lines 31-52): set the order
to `CANCELLED`; if found, publish `OrderCancelled` with reason
`"Inventory Unavailable"`. -/
def process_inventory_unavailable (store : List Order) (order_id : String)
    (now : Nat) : List Order × Option OrderEvent :=
  match update_order_status store order_id OrderStatus.CANCELLED now with
  | (store1, some o) =>
    (store1, some (OrderEvent.orderCancelled order_id o.updated_at "Inventory Unavailable"))
  | (store1, none) => (store1, none)

/-- The status recorded for an order id, if the order exists. -/
def statusOf (store : List Order) (order_id : String) : Option OrderStatus :=
  (findOrder store order_id).map (fun o => o.status)

/-- The `updated_at` recorded for an order id, if the order exists. -/
def updatedAtOf (store : List Order) (order_id : String) : Option Nat :=
  (findOrder store order_id).map (fun o => o.updated_at)

/-! ## Lemmas about the inventory store -/

theorem getInventory_mem {inv : List InventoryRow} {pid : String} {row : InventoryRow}
    (h : getInventory inv pid = some row) : row ∈ inv ∧ row.product_id = pid := by
  refine ⟨List.mem_of_find?_eq_some h, ?_⟩
  have hp := List.find?_some h
  simpa using hp

theorem getInventory_cons_pos {x : InventoryRow} {rest : List InventoryRow} {pid : String}
    (hx : (x.product_id == pid) = true) : getInventory (x :: rest) pid = some x :=
  List.find?_cons_of_pos _ hx

theorem getInventory_cons_neg {x : InventoryRow} {rest : List InventoryRow} {pid : String}
    (hx : (x.product_id == pid) = false) :
    getInventory (x :: rest) pid = getInventory rest pid :=
  List.find?_cons_of_neg _ (by simp [hx])

theorem getInventory_setStock_self {inv : List InventoryRow} {pid : String}
    {row : InventoryRow} (h : getInventory inv pid = some row) (v : Int) :
    getInventory (setStock inv pid v) pid = some { row with stock := v } := by
  induction inv with
  | nil => simp [getInventory] at h
  | cons x rest ih =>
    cases hx : x.product_id == pid with
    | true =>
      rw [getInventory_cons_pos hx] at h
      cases h
      unfold setStock
      rw [if_pos hx]
      exact getInventory_cons_pos hx
    | false =>
      rw [getInventory_cons_neg hx] at h
      unfold setStock
      rw [if_neg (by simp [hx])]
      rw [getInventory_cons_neg hx]
      exact ih h

theorem getInventory_setStock_ne {inv : List InventoryRow} {pid pid' : String}
    (hne : pid' ≠ pid) (v : Int) :
    getInventory (setStock inv pid v) pid' = getInventory inv pid' := by
  induction inv with
  | nil => rfl
  | cons x rest ih =>
    cases hx : x.product_id == pid with
    | true =>
      have hxeq : x.product_id = pid := by simpa using hx
      have hx' : (x.product_id == pid') = false := by
        simp [hxeq]
        exact fun h => hne h.symm
      unfold setStock
      rw [if_pos hx]
      rw [getInventory_cons_neg (x := { x with stock := v }) hx',
          getInventory_cons_neg hx']
    | false =>
      unfold setStock
      rw [if_neg (by simp [hx])]
      cases hx' : x.product_id == pid' with
      | true => rw [getInventory_cons_pos hx', getInventory_cons_pos hx']
      | false =>
        rw [getInventory_cons_neg hx', getInventory_cons_neg hx']
        exact ih

theorem setStock_nonneg {inv : List InventoryRow} {pid : String} {v : Int}
    (hinv : ∀ row ∈ inv, 0 ≤ row.stock) (hv : 0 ≤ v) :
    ∀ row ∈ setStock inv pid v, 0 ≤ row.stock := by
  induction inv with
  | nil => simp [setStock]
  | cons x rest ih =>
    intro row hrow
    unfold setStock at hrow
    split at hrow
    · rcases List.mem_cons.1 hrow with h1 | h1
      · subst h1; exact hv
      · exact hinv row (List.mem_cons_of_mem _ h1)
    · rcases List.mem_cons.1 hrow with h1 | h1
      · subst h1; exact hinv row (List.mem_cons_self _ _)
      · exact ih (fun r hr => hinv r (List.mem_cons_of_mem _ hr)) row h1

theorem applyReservations_nonneg :
    ∀ (rs : List InventoryReservation) (inv : List InventoryRow),
      (∀ row ∈ inv, 0 ≤ row.stock) →
      (∀ r ∈ rs, ∀ row, getInventory inv r.product_id = some row →
        r.quantity ≤ row.stock) →
      rs.Pairwise (fun a b => a.product_id ≠ b.product_id) →
      ∀ row ∈ applyReservations inv rs, 0 ≤ row.stock := by
  intro rs
  induction rs with
  | nil =>
    intro inv hinv _ _
    simpa [applyReservations] using hinv
  | cons r rest ih =>
    intro inv hinv hcov hpw
    unfold applyReservations
    cases hg : getInventory inv r.product_id with
    | none =>
      exact ih inv hinv (fun r' hr' => hcov r' (List.mem_cons_of_mem _ hr'))
        (List.pairwise_cons.1 hpw).2
    | some row =>
      have hle : r.quantity ≤ row.stock := hcov r (List.mem_cons_self _ _) row hg
      apply ih
      · exact setStock_nonneg hinv (by omega)
      · intro r' hr' row' hrow'
        have hne : r'.product_id ≠ r.product_id :=
          fun hcontra => ((List.pairwise_cons.1 hpw).1 r' hr') hcontra.symm
        rw [getInventory_setStock_ne hne] at hrow'
        exact hcov r' (List.mem_cons_of_mem _ hr') row' hrow'
      · exact (List.pairwise_cons.1 hpw).2

theorem creditReservations_nonneg :
    ∀ (rs : List InventoryReservation) (inv : List InventoryRow),
      (∀ row ∈ inv, 0 ≤ row.stock) →
      (∀ r ∈ rs, 0 ≤ r.quantity) →
      ∀ row ∈ creditReservations inv rs, 0 ≤ row.stock := by
  intro rs
  induction rs with
  | nil =>
    intro inv hinv _
    simpa [creditReservations] using hinv
  | cons r rest ih =>
    intro inv hinv hq
    unfold creditReservations
    cases hg : getInventory inv r.product_id with
    | none => exact ih inv hinv (fun r' hr' => hq r' (List.mem_cons_of_mem _ hr'))
    | some row =>
      have hrow : 0 ≤ row.stock := hinv row (getInventory_mem hg).1
      have hq0 : 0 ≤ r.quantity := hq r (List.mem_cons_self _ _)
      apply ih
      · exact setStock_nonneg hinv (by omega)
      · exact fun r' hr' => hq r' (List.mem_cons_of_mem _ hr')

theorem checkAndPrepare_mem {inv : List InventoryRow} {O : String} :
    ∀ (items : List OrderItem) (rs : List InventoryReservation),
      checkAndPrepare inv O items = some rs →
      ∀ r ∈ rs,
        r.order_id = O ∧
        (∃ it ∈ items, r.product_id = it.product_id ∧ r.quantity = it.quantity) ∧
        ∃ row, getInventory inv r.product_id = some row ∧ r.quantity ≤ row.stock := by
  intro items
  induction items with
  | nil =>
    intro rs h
    unfold checkAndPrepare at h
    cases h
    intro r hr
    simp at hr
  | cons it rest ih =>
    intro rs h
    unfold checkAndPrepare at h
    split at h
    · exact absurd h (by simp)
    · rename_i row hg
      split at h
      · exact absurd h (by simp)
      · rename_i hlt
        split at h
        · exact absurd h (by simp)
        · rename_i rs0 hrec
          cases h
          intro r hr
          rcases List.mem_cons.1 hr with h1 | h1
          · subst h1
            refine ⟨rfl, ⟨it, List.mem_cons_self _ _, rfl, rfl⟩, row, hg, ?_⟩
            show it.quantity ≤ row.stock
            omega
          · obtain ⟨ho, ⟨it', hit', hp', hq'⟩, hrow⟩ := ih rs0 hrec r h1
            exact ⟨ho, ⟨it', List.mem_cons_of_mem _ hit', hp', hq'⟩, hrow⟩

theorem checkAndPrepare_of_unavailable {inv : List InventoryRow} {O : String} :
    ∀ (items : List OrderItem),
      (∃ it ∈ items, itemAvailable inv it = false) →
      checkAndPrepare inv O items = none := by
  intro items
  induction items with
  | nil => rintro ⟨it, hmem, -⟩; simp at hmem
  | cons it0 rest ih =>
    rintro ⟨it, hmem, hbad⟩
    unfold checkAndPrepare
    rcases List.mem_cons.1 hmem with rfl | hmem'
    · unfold itemAvailable at hbad
      split at hbad
      · rfl
      · rename_i row hg
        have hlt : row.stock < it.quantity := by
          have := of_decide_eq_false hbad
          omega
        rw [if_pos hlt]
    · split
      · rfl
      · rename_i row hg
        split
        · rfl
        · rw [ih ⟨it, hmem', hbad⟩]

theorem keyClash_eq_false {rs : List InventoryReservation} {r : InventoryReservation}
    (h : keyClash rs r = false) : ∀ x ∈ rs, sameKey x r = false := by
  intro x hx
  unfold keyClash at h
  rw [List.any_eq_false] at h
  simpa using h x hx

theorem insertOk_cons {existing rest : List InventoryReservation}
    {r : InventoryReservation} (h : insertOk existing (r :: rest) = true) :
    keyClash existing r = false ∧ keyClash rest r = false ∧
      insertOk existing rest = true := by
  unfold insertOk at h
  simp only [Bool.and_eq_true, Bool.not_eq_true'] at h
  exact ⟨h.1.1, h.1.2, h.2⟩

theorem insertOk_pairwise {existing : List InventoryReservation} {O : String} :
    ∀ (rs : List InventoryReservation),
      (∀ r ∈ rs, r.order_id = O) → insertOk existing rs = true →
      rs.Pairwise (fun a b => a.product_id ≠ b.product_id) := by
  intro rs
  induction rs with
  | nil => intro _ _; exact List.Pairwise.nil
  | cons r rest ih =>
    intro hO h
    obtain ⟨-, h2, h3⟩ := insertOk_cons h
    refine List.Pairwise.cons ?_ (ih (fun x hx => hO x (List.mem_cons_of_mem _ hx)) h3)
    intro b hb
    have hs := keyClash_eq_false h2 b hb
    have hbO : b.order_id = r.order_id := by
      rw [hO b (List.mem_cons_of_mem _ hb), hO r (List.mem_cons_self _ _)]
    unfold sameKey at hs
    rw [hbO] at hs
    simp at hs
    exact fun hcontra => hs hcontra.symm

theorem process_order_created_WF {s : InvState} {O : String} {items : List OrderItem}
    (hwf : InvWF s) (hq : ∀ it ∈ items, 0 ≤ it.quantity) :
    InvWF (process_order_created s O items).1 := by
  unfold process_order_created
  split
  · exact hwf
  · rename_i rs hc
    split
    · rename_i hio
      refine ⟨?_, ?_⟩
      · apply applyReservations_nonneg rs s.inventory hwf.1
        · intro r hr row hrow
          obtain ⟨-, -, row', hrow', hle⟩ := checkAndPrepare_mem items rs hc r hr
          rw [hrow] at hrow'
          cases hrow'
          exact hle
        · exact insertOk_pairwise rs
            (fun r hr => (checkAndPrepare_mem items rs hc r hr).1) hio
      · intro r hr
        rcases List.mem_append.1 hr with h1 | h1
        · exact hwf.2 r h1
        · obtain ⟨-, ⟨it, hit, -, hq'⟩, -⟩ := checkAndPrepare_mem items rs hc r h1
          rw [hq']
          exact hq it hit
    · exact hwf

theorem process_order_cancelled_WF {s : InvState} {O : String} (hwf : InvWF s) :
    InvWF (process_order_cancelled s O).1 := by
  unfold process_order_cancelled
  by_cases he : (s.reservations.filter (fun r => r.order_id == O)).isEmpty = true
  · rw [if_pos he]
    exact hwf
  · rw [if_neg he]
    constructor
    · apply creditReservations_nonneg _ _ hwf.1
      intro r hr
      exact hwf.2 r (List.mem_of_mem_filter hr)
    · intro r hr
      exact hwf.2 r (List.mem_of_mem_filter hr)

theorem runInv_WF :
    ∀ (ms : List InvMsg) (s : InvState), InvWF s → (∀ m ∈ ms, msgOk m = true) →
      InvWF (runInv s ms) := by
  intro ms
  induction ms with
  | nil => intro s hwf _; exact hwf
  | cons m rest ih =>
    intro s hwf hok
    rw [runInv]
    apply ih
    · cases m with
      | orderCreated O items =>
        apply process_order_created_WF hwf
        have hall := hok _ (List.mem_cons_self _ _)
        unfold msgOk at hall
        rw [List.all_eq_true] at hall
        intro it hit
        exact of_decide_eq_true (hall it hit)
      | orderCancelled O => exact process_order_cancelled_WF hwf
    · intro m' hm'
      exact hok m' (List.mem_cons_of_mem _ hm')

/-! ## Claim theorems for the inventory participant -/

/-- Claim C1: for every sequence of `OrderCreated` and `OrderCancelled`
events handled by the inventory participant — starting from a well-formed
store, with every event carrying the non-negative item quantities the data
model prescribes — the stock of every product is non-negative after each
handler completes, i.e. after every prefix of the delivered sequence.
In particular an `OrderCreated` whose item list repeats a product id never
leaves that product's stock below zero: its reservation rows collide on the
composite primary key of `inventory_reservations`, the commit raises
`IntegrityError`, and the state is left unchanged. -/
theorem stock_never_negative (s : InvState) (ms pre suf : List InvMsg)
    (hwf : InvWF s) (hok : ∀ m ∈ ms, msgOk m = true) (hsplit : ms = pre ++ suf) :
    ∀ row ∈ (runInv s pre).inventory, 0 ≤ row.stock :=
  (runInv_WF pre s hwf
    (fun m hm => hok m (by rw [hsplit]; exact List.mem_append_left _ hm))).1

theorem stock_never_negative_witness :
    InvWF ⟨[⟨"product-A", 10⟩], []⟩ ∧
    (∀ m ∈ [InvMsg.orderCreated "order-1" [⟨"product-A", 6⟩, ⟨"product-A", 6⟩]],
        msgOk m = true) ∧
    ∀ row ∈ (runInv ⟨[⟨"product-A", 10⟩], []⟩
        [InvMsg.orderCreated "order-1" [⟨"product-A", 6⟩, ⟨"product-A", 6⟩]]).inventory,
      0 ≤ row.stock :=
  ⟨by decide, by decide,
    stock_never_negative ⟨[⟨"product-A", 10⟩], []⟩
      [InvMsg.orderCreated "order-1" [⟨"product-A", 6⟩, ⟨"product-A", 6⟩]]
      [InvMsg.orderCreated "order-1" [⟨"product-A", 6⟩, ⟨"product-A", 6⟩]] []
      (by decide) (by decide) rfl⟩

/-- Claim C3: if at least one item of an `OrderCreated` event names a product
that is missing from the inventory store or has stock below the requested
quantity, the handler returns the state unchanged (no stock decrement, no
reservation row for any item) and emits exactly one `InventoryUnavailable`
event carrying the order id and the reason `"Insufficient stock"`. -/
theorem unavailable_aborts_whole_order (s : InvState) (O : String)
    (items : List OrderItem)
    (hbad : ∃ it ∈ items, itemAvailable s.inventory it = false) :
    process_order_created s O items =
      (s, some (InvEvent.inventoryUnavailable O "Insufficient stock")) := by
  unfold process_order_created
  rw [checkAndPrepare_of_unavailable items hbad]

theorem unavailable_aborts_whole_order_witness :
    (∃ it ∈ [(⟨"product-A", 6⟩ : OrderItem), ⟨"product-C", 1⟩],
        itemAvailable [⟨"product-A", 10⟩, ⟨"product-C", 0⟩] it = false) ∧
    process_order_created ⟨[⟨"product-A", 10⟩, ⟨"product-C", 0⟩], []⟩ "order-1"
        [⟨"product-A", 6⟩, ⟨"product-C", 1⟩] =
      (⟨[⟨"product-A", 10⟩, ⟨"product-C", 0⟩], []⟩,
       some (InvEvent.inventoryUnavailable "order-1" "Insufficient stock")) :=
  ⟨by decide,
    unavailable_aborts_whole_order ⟨[⟨"product-A", 10⟩, ⟨"product-C", 0⟩], []⟩
      "order-1" [⟨"product-A", 6⟩, ⟨"product-C", 1⟩] (by decide)⟩

/-- Claim C9: delivering the same `order.cancelled` event twice in succession
yields after the second handling exactly the state left by the first: the
first handling already leaves zero reservation rows for the order id, so the
second finds none, credits no stock, changes nothing and emits no event (the
cancellation handler never publishes). -/
theorem cancel_redelivery_idempotent (s : InvState) (O : String) :
    process_order_cancelled (process_order_cancelled s O).1 O =
      ((process_order_cancelled s O).1, none) ∧
    ((process_order_cancelled s O).1).reservations.filter
        (fun r => r.order_id == O) = [] ∧
    (process_order_cancelled s O).2 = none := by
  have hfilter : ∀ t : InvState,
      ((process_order_cancelled t O).1).reservations.filter
        (fun r => r.order_id == O) = [] := by
    intro t
    unfold process_order_cancelled
    by_cases he : (t.reservations.filter (fun r => r.order_id == O)).isEmpty = true
    · rw [if_pos he]
      rwa [List.isEmpty_iff] at he
    · rw [if_neg he]
      rw [List.filter_eq_nil_iff]
      intro r hr
      have hmem := List.of_mem_filter hr
      simp at hmem ⊢
      exact hmem
  have hnoop : ∀ t : InvState,
      t.reservations.filter (fun r => r.order_id == O) = [] →
      process_order_cancelled t O = (t, none) := by
    intro t ht
    unfold process_order_cancelled
    rw [ht]
    rfl
  have hsnd : ∀ t : InvState, (process_order_cancelled t O).2 = none := by
    intro t
    simp only [process_order_cancelled]
    split <;> rfl
  exact ⟨hnoop _ (hfilter s), hfilter s, hsnd s⟩

/-- Claim C2: for a product `P` with stock `S` and a fresh order `O`
reserving `q ≤ S`, handling `OrderCreated` for `O` and then `OrderCancelled`
for the same order id restores `P`'s stock to exactly `S` and leaves zero
reservation rows for `O`. -/
theorem reservation_compensation_exact (s : InvState) (O P : String) (S q : Int)
    (hstock : stockOf s P = some S) (hq : q ≤ S)
    (hfresh : ∀ r ∈ s.reservations, r.order_id ≠ O) :
    stockOf (process_order_cancelled
        (process_order_created s O [⟨P, q⟩]).1 O).1 P = some S ∧
    ((process_order_cancelled
        (process_order_created s O [⟨P, q⟩]).1 O).1).reservations.filter
          (fun r => r.order_id == O) = [] := by
  obtain ⟨row, hget, hS⟩ : ∃ row, getInventory s.inventory P = some row ∧
      row.stock = S := by
    unfold stockOf at hstock
    cases hg : getInventory s.inventory P with
    | none => rw [hg] at hstock; exact absurd hstock (by simp)
    | some row =>
      rw [hg] at hstock
      exact ⟨row, rfl, by simpa using hstock⟩
  have hcp : checkAndPrepare s.inventory O [⟨P, q⟩] = some [⟨O, P, q⟩] := by
    simp only [checkAndPrepare, hget]
    rw [if_neg (show ¬ row.stock < q by omega)]
  have hkcnil : ∀ r : InventoryReservation, keyClash [] r = false := fun _ => rfl
  have hio : insertOk s.reservations [⟨O, P, q⟩] = true := by
    have hkc : keyClash s.reservations ⟨O, P, q⟩ = false := by
      unfold keyClash
      rw [List.any_eq_false]
      intro x hx
      unfold sameKey
      simp [hfresh x hx]
    simp [insertOk, hkcnil, hkc]
  have hstep1 : process_order_created s O [⟨P, q⟩] =
      ({ inventory := setStock s.inventory P (row.stock - q),
         reservations := s.reservations ++ [⟨O, P, q⟩] },
       some (InvEvent.inventoryReserved O)) := by
    simp only [process_order_created, hcp, hio, if_true]
    simp only [applyReservations, hget]
  have hfO : (s.reservations ++ [(⟨O, P, q⟩ : InventoryReservation)]).filter
      (fun r => r.order_id == O) = [⟨O, P, q⟩] := by
    rw [List.filter_append]
    have h1 : s.reservations.filter (fun r => r.order_id == O) = [] := by
      rw [List.filter_eq_nil_iff]
      intro a ha
      simp [hfresh a ha]
    rw [h1]
    simp
  have hfNotO : (s.reservations ++ [(⟨O, P, q⟩ : InventoryReservation)]).filter
      (fun r => !(r.order_id == O)) = s.reservations := by
    rw [List.filter_append]
    have h1 : s.reservations.filter (fun r => !(r.order_id == O)) = s.reservations := by
      rw [List.filter_eq_self]
      intro a ha
      simp [hfresh a ha]
    rw [h1]
    simp
  have hgets1 : getInventory (setStock s.inventory P (row.stock - q)) P =
      some { row with stock := row.stock - q } := getInventory_setStock_self hget _
  have hstep2 : process_order_cancelled (process_order_created s O [⟨P, q⟩]).1 O =
      ({ inventory := setStock (setStock s.inventory P (row.stock - q)) P
            (row.stock - q + q),
         reservations := s.reservations }, none) := by
    rw [hstep1]
    simp only [process_order_cancelled, hfO, hfNotO, List.isEmpty_cons,
      if_false, Bool.false_eq_true]
    simp only [creditReservations, hgets1]
  rw [hstep2]
  constructor
  · unfold stockOf
    rw [getInventory_setStock_self hgets1]
    simp
    omega
  · rw [List.filter_eq_nil_iff]
    intro a ha
    simp [hfresh a ha]

theorem reservation_compensation_exact_witness :
    stockOf ⟨[⟨"product-A", 10⟩], []⟩ "product-A" = some 10 ∧
    (3 : Int) ≤ 10 ∧
    (∀ r ∈ (⟨[⟨"product-A", 10⟩], []⟩ : InvState).reservations,
        r.order_id ≠ "order-1") ∧
    (stockOf (process_order_cancelled
        (process_order_created ⟨[⟨"product-A", 10⟩], []⟩ "order-1"
          [⟨"product-A", 3⟩]).1 "order-1").1 "product-A" = some 10 ∧
     ((process_order_cancelled
        (process_order_created ⟨[⟨"product-A", 10⟩], []⟩ "order-1"
          [⟨"product-A", 3⟩]).1 "order-1").1).reservations.filter
            (fun r => r.order_id == "order-1") = []) :=
  ⟨by decide, by decide, by decide,
    reservation_compensation_exact ⟨[⟨"product-A", 10⟩], []⟩ "order-1" "product-A"
      10 3 (by decide) (by decide) (by decide)⟩

/-! ## Claim theorems for the payment participant -/

theorem getPayment_none_filter {ps : List Payment} {O : String}
    (h : getPayment ps O = none) :
    ps.filter (fun p => p.order_id == O) = [] := by
  unfold getPayment at h
  rw [List.find?_eq_none] at h
  rw [List.filter_eq_nil_iff]
  intro a ha
  exact h a ha

/-- Claim C4: an `InventoryReserved` delivery whose order id already has a
payment record stops at the idempotency gate regardless of the record's
status: the store is returned unchanged and no event is published.  The
charge-outcome oracle is irrelevant because the handler returns before the
charge is attempted. -/
theorem payment_idempotency_gate (ps : List Payment) (oracle : Nat → Bool)
    (O : String) (p : Payment) (h : getPayment ps O = some p) :
    process_inventory_reserved ps oracle O = (ps, none) := by
  simp only [process_inventory_reserved, h]

theorem payment_idempotency_gate_witness :
    getPayment [⟨"order-1", 100, "FAILED"⟩] "order-1" =
      some ⟨"order-1", 100, "FAILED"⟩ ∧
    process_inventory_reserved [⟨"order-1", 100, "FAILED"⟩] (fun _ => true)
        "order-1" = ([⟨"order-1", 100, "FAILED"⟩], none) :=
  ⟨by decide,
    payment_idempotency_gate [⟨"order-1", 100, "FAILED"⟩] (fun _ => true)
      "order-1" ⟨"order-1", 100, "FAILED"⟩ (by decide)⟩

/-- Claim C7: an `InventoryReserved` delivery with no existing payment record
persists exactly one record and publishes exactly one event: a `PROCESSED`
record and `PaymentProcessed` when the simulated charge succeeds within the
retry budget, a `FAILED` record and `PaymentFailed` when the budget is
exhausted. -/
theorem payment_single_record_and_event (ps : List Payment) (oracle : Nat → Bool)
    (O : String) (h : getPayment ps O = none) :
    ((simulate_payment_processing oracle).1 = true →
      process_inventory_reserved ps oracle O =
        (ps ++ [⟨O, 100, "PROCESSED"⟩], some (PayEvent.paymentProcessed O 100))) ∧
    ((simulate_payment_processing oracle).1 = false →
      process_inventory_reserved ps oracle O =
        (ps ++ [⟨O, 100, "FAILED"⟩],
         some (PayEvent.paymentFailed O "Payment failed after retries"))) ∧
    ((process_inventory_reserved ps oracle O).1.filter
        (fun p => p.order_id == O)).length = 1 ∧
    ((process_inventory_reserved ps oracle O).2).isSome = true := by
  have hflt : ps.filter (fun p => p.order_id == O) = [] := getPayment_none_filter h
  cases hsim : (simulate_payment_processing oracle).1 <;>
    simp [process_inventory_reserved, h, hsim, List.filter_append, hflt]

theorem payment_single_record_and_event_witness :
    getPayment [] "order-1" = none ∧
    (((simulate_payment_processing (fun _ => false)).1 = true →
      process_inventory_reserved [] (fun _ => false) "order-1" =
        ([] ++ [⟨"order-1", 100, "PROCESSED"⟩],
         some (PayEvent.paymentProcessed "order-1" 100))) ∧
    ((simulate_payment_processing (fun _ => false)).1 = false →
      process_inventory_reserved [] (fun _ => false) "order-1" =
        ([] ++ [⟨"order-1", 100, "FAILED"⟩],
         some (PayEvent.paymentFailed "order-1" "Payment failed after retries"))) ∧
    ((process_inventory_reserved [] (fun _ => false) "order-1").1.filter
        (fun p => p.order_id == "order-1")).length = 1 ∧
    ((process_inventory_reserved [] (fun _ => false) "order-1").2).isSome = true) :=
  ⟨by decide,
    payment_single_record_and_event [] (fun _ => false) "order-1" (by decide)⟩

/-- Claim C8: the simulated charge is a bounded-retry operation: every
invocation performs at most 3 attempts; the waits between consecutive
attempts follow tenacity's clamped exponential schedule
`wait_exponential 1 2 10 n = max 2 (min (2 ^ n) 10)` — so the backoff starts
at 2 time units after the first failed attempt and every wait lies within
`[2, 10]` — and a `false` overall outcome (the `RetryError` of an exhausted
budget) happens only after all 3 attempts, as a definite final failure of
the invocation rather than a pending state. -/
theorem charge_bounded_retry (oracle : Nat → Bool) :
    (simulate_payment_processing oracle).2.1 ≤ 3 ∧
    (simulate_payment_processing oracle).2.2 =
      (List.range' 1 ((simulate_payment_processing oracle).2.1 - 1)).map
        (wait_exponential 1 2 10) ∧
    (∀ w ∈ (simulate_payment_processing oracle).2.2, 2 ≤ w ∧ w ≤ 10) ∧
    ((simulate_payment_processing oracle).1 = false →
      (simulate_payment_processing oracle).2.1 = 3 ∧
      (simulate_payment_processing oracle).2.2 = [2, 4]) := by
  cases h1 : oracle 1 <;> cases h2 : oracle 2 <;> cases h3 : oracle 3 <;>
    simp [simulate_payment_processing, retryLoop, h1, h2, h3,
      wait_exponential, List.range']

theorem charge_bounded_retry_witness :
    (simulate_payment_processing (fun _ => false)).2.1 ≤ 3 ∧
    (simulate_payment_processing (fun _ => false)).2.2 =
      (List.range' 1 ((simulate_payment_processing (fun _ => false)).2.1 - 1)).map
        (wait_exponential 1 2 10) ∧
    (∀ w ∈ (simulate_payment_processing (fun _ => false)).2.2, 2 ≤ w ∧ w ≤ 10) ∧
    ((simulate_payment_processing (fun _ => false)).1 = false →
      (simulate_payment_processing (fun _ => false)).2.1 = 3 ∧
      (simulate_payment_processing (fun _ => false)).2.2 = [2, 4]) :=
  charge_bounded_retry (fun _ => false)

/-! ## Claim theorems for the order service -/

theorem findOrder_cons_pos {x : Order} {rest : List Order} {O : String}
    (hx : (x.id == O) = true) : findOrder (x :: rest) O = some x :=
  List.find?_cons_of_pos _ hx

theorem findOrder_cons_neg {x : Order} {rest : List Order} {O : String}
    (hx : (x.id == O) = false) : findOrder (x :: rest) O = findOrder rest O :=
  List.find?_cons_of_neg _ (by simp [hx])

theorem findOrder_id {store : List Order} {O : String} {o : Order}
    (h : findOrder store O = some o) : o.id = O := by
  have hp := List.find?_some h
  simpa using hp

theorem findOrder_replaceOrder {O : String} (o o' : Order) (hid : o'.id = o.id) :
    ∀ store : List Order, findOrder store O = some o →
      findOrder (replaceOrder store o') O = some o' := by
  intro store
  induction store with
  | nil => intro h; simp [findOrder] at h
  | cons x rest ih =>
    intro h
    have hOid : o.id = O := findOrder_id h
    cases hx : x.id == O with
    | true =>
      rw [findOrder_cons_pos hx] at h
      have hxo : x = o := by injection h
      subst hxo
      unfold replaceOrder
      rw [if_pos (show (x.id == o'.id) = true by simp [hid])]
      exact findOrder_cons_pos (by simp [hid, hOid])
    | false =>
      rw [findOrder_cons_neg hx] at h
      have hxne : x.id ≠ O := by simpa using hx
      have hxo' : (x.id == o'.id) = false := by
        rw [hid, hOid]
        exact hx
      unfold replaceOrder
      rw [if_neg (by rw [hxo']; exact Bool.false_ne_true)]
      rw [findOrder_cons_neg hx]
      exact ih h

/-- Claim C6: for an order present in the store, `PaymentProcessed` sets its
status to `COMPLETED` and publishes `OrderConfirmed` carrying the order's
`total_amount`; `PaymentFailed` sets it to `CANCELLED` and publishes
`OrderCancelled` with reason `"Payment Failed"`; `InventoryUnavailable` sets
it to `CANCELLED` and publishes `OrderCancelled` with reason
`"Inventory Unavailable"`. -/
theorem order_terminal_transitions (store : List Order) (O : String) (now : Nat)
    (o : Order) (h : findOrder store O = some o) :
    (statusOf (process_payment_processed store O now).1 O =
        some OrderStatus.COMPLETED ∧
      (process_payment_processed store O now).2 =
        some (OrderEvent.orderConfirmed O now o.total_amount)) ∧
    (statusOf (process_payment_failed store O now).1 O =
        some OrderStatus.CANCELLED ∧
      (process_payment_failed store O now).2 =
        some (OrderEvent.orderCancelled O now "Payment Failed")) ∧
    (statusOf (process_inventory_unavailable store O now).1 O =
        some OrderStatus.CANCELLED ∧
      (process_inventory_unavailable store O now).2 =
        some (OrderEvent.orderCancelled O now "Inventory Unavailable")) := by
  have hupd : ∀ st : OrderStatus, update_order_status store O st now =
      (replaceOrder store { o with status := st, updated_at := now },
       some { o with status := st, updated_at := now }) := by
    intro st
    simp only [update_order_status, h]
  have hfind : ∀ st : OrderStatus,
      findOrder (replaceOrder store { o with status := st, updated_at := now }) O =
        some { o with status := st, updated_at := now } :=
    fun st =>
      findOrder_replaceOrder o { o with status := st, updated_at := now } rfl store h
  refine ⟨⟨?_, ?_⟩, ⟨?_, ?_⟩, ⟨?_, ?_⟩⟩ <;>
    simp [process_payment_processed, process_payment_failed,
      process_inventory_unavailable, hupd, statusOf, hfind]

theorem order_terminal_transitions_witness :
    findOrder [⟨"order-1", "cust-1", "[]", 100, OrderStatus.PENDING, 0, 0⟩]
        "order-1" =
      some ⟨"order-1", "cust-1", "[]", 100, OrderStatus.PENDING, 0, 0⟩ ∧
    ((statusOf (process_payment_processed
          [⟨"order-1", "cust-1", "[]", 100, OrderStatus.PENDING, 0, 0⟩]
          "order-1" 7).1 "order-1" = some OrderStatus.COMPLETED ∧
      (process_payment_processed
          [⟨"order-1", "cust-1", "[]", 100, OrderStatus.PENDING, 0, 0⟩]
          "order-1" 7).2 = some (OrderEvent.orderConfirmed "order-1" 7 100)) ∧
    (statusOf (process_payment_failed
          [⟨"order-1", "cust-1", "[]", 100, OrderStatus.PENDING, 0, 0⟩]
          "order-1" 7).1 "order-1" = some OrderStatus.CANCELLED ∧
      (process_payment_failed
          [⟨"order-1", "cust-1", "[]", 100, OrderStatus.PENDING, 0, 0⟩]
          "order-1" 7).2 =
        some (OrderEvent.orderCancelled "order-1" 7 "Payment Failed")) ∧
    (statusOf (process_inventory_unavailable
          [⟨"order-1", "cust-1", "[]", 100, OrderStatus.PENDING, 0, 0⟩]
          "order-1" 7).1 "order-1" = some OrderStatus.CANCELLED ∧
      (process_inventory_unavailable
          [⟨"order-1", "cust-1", "[]", 100, OrderStatus.PENDING, 0, 0⟩]
          "order-1" 7).2 =
        some (OrderEvent.orderCancelled "order-1" 7 "Inventory Unavailable"))) :=
  ⟨by decide,
    order_terminal_transitions
      [⟨"order-1", "cust-1", "[]", 100, OrderStatus.PENDING, 0, 0⟩] "order-1" 7
      ⟨"order-1", "cust-1", "[]", 100, OrderStatus.PENDING, 0, 0⟩ (by decide)⟩

/-- Claim C10: a `PaymentProcessed`, `PaymentFailed` or `InventoryUnavailable`
event whose order id is absent from the store leaves the store unchanged and
publishes nothing: `update_order_status` returns `None`, so the publish step
is skipped. -/
theorem missing_order_noop (store : List Order) (O : String) (now : Nat)
    (h : findOrder store O = none) :
    process_payment_processed store O now = (store, none) ∧
    process_payment_failed store O now = (store, none) ∧
    process_inventory_unavailable store O now = (store, none) := by
  have hupd : ∀ st : OrderStatus,
      update_order_status store O st now = (store, none) := by
    intro st
    simp only [update_order_status, h]
  refine ⟨?_, ?_, ?_⟩ <;>
    simp [process_payment_processed, process_payment_failed,
      process_inventory_unavailable, hupd]

theorem missing_order_noop_witness :
    findOrder [⟨"order-1", "cust-1", "[]", 100, OrderStatus.PENDING, 0, 0⟩]
        "order-2" = none ∧
    (process_payment_processed
        [⟨"order-1", "cust-1", "[]", 100, OrderStatus.PENDING, 0, 0⟩]
        "order-2" 7 =
      ([⟨"order-1", "cust-1", "[]", 100, OrderStatus.PENDING, 0, 0⟩], none) ∧
    process_payment_failed
        [⟨"order-1", "cust-1", "[]", 100, OrderStatus.PENDING, 0, 0⟩]
        "order-2" 7 =
      ([⟨"order-1", "cust-1", "[]", 100, OrderStatus.PENDING, 0, 0⟩], none) ∧
    process_inventory_unavailable
        [⟨"order-1", "cust-1", "[]", 100, OrderStatus.PENDING, 0, 0⟩]
        "order-2" 7 =
      ([⟨"order-1", "cust-1", "[]", 100, OrderStatus.PENDING, 0, 0⟩], none)) :=
  ⟨by decide,
    missing_order_noop
      [⟨"order-1", "cust-1", "[]", 100, OrderStatus.PENDING, 0, 0⟩]
      "order-2" 7 (by decide)⟩

/-- Claim C5 counterexample: order "order-1" is already `COMPLETED` by a
first `PaymentProcessed` handled at time 1; re-delivering the same event at
time 2 does not leave the order record observably unchanged — `updated_at`
is overwritten with the new time — and `OrderConfirmed` is published a
second time, so the duplicate delivery is not the claimed idempotent no-op
and no status-based detection takes place. -/
theorem redelivery_changes_record_counterexample :
    (process_payment_processed
        (process_payment_processed
          [⟨"order-1", "cust-1", "[]", 100, OrderStatus.PENDING, 0, 0⟩]
          "order-1" 1).1
        "order-1" 2).1 ≠
      (process_payment_processed
        [⟨"order-1", "cust-1", "[]", 100, OrderStatus.PENDING, 0, 0⟩]
        "order-1" 1).1 ∧
    (process_payment_processed
        (process_payment_processed
          [⟨"order-1", "cust-1", "[]", 100, OrderStatus.PENDING, 0, 0⟩]
          "order-1" 1).1
        "order-1" 2).2 =
      some (OrderEvent.orderConfirmed "order-1" 2 100) := by
  decide

/-- Claim C5 amended: re-delivering an already-applied `PaymentProcessed`,
`PaymentFailed` or `InventoryUnavailable` event re-runs the unconditional
write instead of detecting the duplicate: in each of the three handlers the
status field keeps its (already terminal) value — `COMPLETED` for a
redelivered `PaymentProcessed`, `CANCELLED` for a redelivered
`PaymentFailed` or `InventoryUnavailable` — but the order record is
rewritten with `updated_at` set to the delivery time and the outbound event
is published again; all three call the same status-blind
`update_order_status`. -/
theorem redelivery_rewrites_unconditionally (store : List Order) (O : String)
    (now : Nat) (o : Order) (h : findOrder store O = some o) :
    (o.status = OrderStatus.COMPLETED →
      (process_payment_processed store O now).1 =
        replaceOrder store { o with status := o.status, updated_at := now } ∧
      (process_payment_processed store O now).2 =
        some (OrderEvent.orderConfirmed O now o.total_amount)) ∧
    (o.status = OrderStatus.CANCELLED →
      (process_payment_failed store O now).1 =
        replaceOrder store { o with status := o.status, updated_at := now } ∧
      (process_payment_failed store O now).2 =
        some (OrderEvent.orderCancelled O now "Payment Failed")) ∧
    (o.status = OrderStatus.CANCELLED →
      (process_inventory_unavailable store O now).1 =
        replaceOrder store { o with status := o.status, updated_at := now } ∧
      (process_inventory_unavailable store O now).2 =
        some (OrderEvent.orderCancelled O now "Inventory Unavailable")) := by
  refine ⟨fun hdone => ⟨?_, ?_⟩, fun hdone => ⟨?_, ?_⟩, fun hdone => ⟨?_, ?_⟩⟩ <;>
    simp [process_payment_processed, process_payment_failed,
      process_inventory_unavailable, update_order_status, h, hdone]

theorem redelivery_rewrites_unconditionally_witness :
    findOrder [⟨"order-1", "cust-1", "[]", 100, OrderStatus.COMPLETED, 0, 1⟩]
        "order-1" =
      some ⟨"order-1", "cust-1", "[]", 100, OrderStatus.COMPLETED, 0, 1⟩ ∧
    (⟨"order-1", "cust-1", "[]", 100, OrderStatus.COMPLETED, 0, 1⟩ : Order).status =
      OrderStatus.COMPLETED ∧
    findOrder [⟨"order-2", "cust-1", "[]", 100, OrderStatus.CANCELLED, 0, 1⟩]
        "order-2" =
      some ⟨"order-2", "cust-1", "[]", 100, OrderStatus.CANCELLED, 0, 1⟩ ∧
    (⟨"order-2", "cust-1", "[]", 100, OrderStatus.CANCELLED, 0, 1⟩ : Order).status =
      OrderStatus.CANCELLED ∧
    ((process_payment_processed
        [⟨"order-1", "cust-1", "[]", 100, OrderStatus.COMPLETED, 0, 1⟩]
        "order-1" 2).1 =
      replaceOrder [⟨"order-1", "cust-1", "[]", 100, OrderStatus.COMPLETED, 0, 1⟩]
        { (⟨"order-1", "cust-1", "[]", 100, OrderStatus.COMPLETED, 0, 1⟩ : Order) with
            status := (⟨"order-1", "cust-1", "[]", 100,
              OrderStatus.COMPLETED, 0, 1⟩ : Order).status,
            updated_at := 2 } ∧
     (process_payment_processed
        [⟨"order-1", "cust-1", "[]", 100, OrderStatus.COMPLETED, 0, 1⟩]
        "order-1" 2).2 =
      some (OrderEvent.orderConfirmed "order-1" 2 100)) ∧
    ((process_payment_failed
        [⟨"order-2", "cust-1", "[]", 100, OrderStatus.CANCELLED, 0, 1⟩]
        "order-2" 2).1 =
      replaceOrder [⟨"order-2", "cust-1", "[]", 100, OrderStatus.CANCELLED, 0, 1⟩]
        { (⟨"order-2", "cust-1", "[]", 100, OrderStatus.CANCELLED, 0, 1⟩ : Order) with
            status := (⟨"order-2", "cust-1", "[]", 100,
              OrderStatus.CANCELLED, 0, 1⟩ : Order).status,
            updated_at := 2 } ∧
     (process_payment_failed
        [⟨"order-2", "cust-1", "[]", 100, OrderStatus.CANCELLED, 0, 1⟩]
        "order-2" 2).2 =
      some (OrderEvent.orderCancelled "order-2" 2 "Payment Failed")) ∧
    ((process_inventory_unavailable
        [⟨"order-2", "cust-1", "[]", 100, OrderStatus.CANCELLED, 0, 1⟩]
        "order-2" 2).1 =
      replaceOrder [⟨"order-2", "cust-1", "[]", 100, OrderStatus.CANCELLED, 0, 1⟩]
        { (⟨"order-2", "cust-1", "[]", 100, OrderStatus.CANCELLED, 0, 1⟩ : Order) with
            status := (⟨"order-2", "cust-1", "[]", 100,
              OrderStatus.CANCELLED, 0, 1⟩ : Order).status,
            updated_at := 2 } ∧
     (process_inventory_unavailable
        [⟨"order-2", "cust-1", "[]", 100, OrderStatus.CANCELLED, 0, 1⟩]
        "order-2" 2).2 =
      some (OrderEvent.orderCancelled "order-2" 2 "Inventory Unavailable")) :=
  ⟨by decide, by decide, by decide, by decide,
    (redelivery_rewrites_unconditionally
      [⟨"order-1", "cust-1", "[]", 100, OrderStatus.COMPLETED, 0, 1⟩] "order-1" 2
      ⟨"order-1", "cust-1", "[]", 100, OrderStatus.COMPLETED, 0, 1⟩
      (by decide)).1 (by decide),
    (redelivery_rewrites_unconditionally
      [⟨"order-2", "cust-1", "[]", 100, OrderStatus.CANCELLED, 0, 1⟩] "order-2" 2
      ⟨"order-2", "cust-1", "[]", 100, OrderStatus.CANCELLED, 0, 1⟩
      (by decide)).2.1 (by decide),
    (redelivery_rewrites_unconditionally
      [⟨"order-2", "cust-1", "[]", 100, OrderStatus.CANCELLED, 0, 1⟩] "order-2" 2
      ⟨"order-2", "cust-1", "[]", 100, OrderStatus.CANCELLED, 0, 1⟩
      (by decide)).2.2 (by decide)⟩

end OrderSaga
